import Mathlib

/-!
Shallow embedding of `src/tidy_logger.py` (class `TidyLogger`).

The Python code manipulates `pathlib.Path` values, the process-wide
`logging` registry of named loggers, and the file system.  We embed:

* `PurePath` — a parsed path (pathlib semantics: split on separators,
  empty and `"."` components dropped, no resolution of `".."`).  Windows
  drive-letter parsing is not modelled: on `os.name == "nt"` every string
  containing `:` is rejected by the invalid-character check before any
  drive-dependent behaviour could be observed, so outcomes agree.
* reading the current date (`datetime.now().strftime("%Y%m%d")`) as an
  explicit `date_suffix : String` parameter;
* the platform test `os.name == "nt"` as an explicit `isNT : Bool`;
* Python exceptions as `Except PyError`;
* the `logging` registry as a function `String → Logger`, and the
  file-system side effects of construction as an explicit `Effect` trace.
-/

/-- The characters Python's `str.strip()` removes (`str.isspace`):
ASCII whitespace, the C0 separators, NEL, NBSP and the Unicode space
code points. -/
def pyIsSpace (c : Char) : Bool :=
  c = ' ' || c = '\t' || c = '\n' || c = '\x0b' || c = '\x0c' || c = '\r' ||
  c = '\x1c' || c = '\x1d' || c = '\x1e' || c = '\x1f' ||
  c.val = 0x85 || c.val = 0xa0 || c.val = 0x1680 ||
  (0x2000 ≤ c.val && c.val ≤ 0x200a) ||
  c.val = 0x2028 || c.val = 0x2029 || c.val = 0x202f || c.val = 0x205f || c.val = 0x3000

/-- `not s.strip()` in Python: `s` is empty or consists of whitespace only. -/
def isBlank (s : String) : Bool := s.toList.all pyIsSpace

/-- Path separators: `/` everywhere, additionally `\` on Windows. -/
def isSep (isNT : Bool) (c : Char) : Bool := c = '/' || (isNT && c = '\\')

/-- Split a character list at separators (keeping empty pieces). -/
def splitPartsAux (isNT : Bool) : List Char → List Char → List String
  | [], acc => [String.mk acc.reverse]
  | c :: cs, acc =>
      if isSep isNT c then String.mk acc.reverse :: splitPartsAux isNT cs []
      else splitPartsAux isNT cs (c :: acc)

/-- A parsed `pathlib` path: whether it is absolute, and its components
(each non-empty and distinct from `"."`, as pathlib drops those). -/
structure PurePath where
  absolute : Bool
  parts : List String
deriving DecidableEq, Repr

/-- `pathlib.Path(s)`: parse a raw string. -/
def parsePath (isNT : Bool) (s : String) : PurePath :=
  { absolute :=
      match s.toList with
      | [] => false
      | c :: _ => isSep isNT c,
    parts := (splitPartsAux isNT s.toList []).filter (fun q => q ≠ "" && q ≠ ".") }

/-- The separator `str()` prints: `\` on Windows, `/` elsewhere. -/
def sepStr (isNT : Bool) : String := if isNT then "\\" else "/"

/-- `str(p)` for a parsed path (pathlib prints `"."` for the empty
relative path). -/
def pathToString (isNT : Bool) (p : PurePath) : String :=
  if p.absolute then sepStr isNT ++ String.intercalate (sepStr isNT) p.parts
  else if p.parts = [] then "." else String.intercalate (sepStr isNT) p.parts

/-- `p.name`: the final component, `""` if there is none. -/
def PurePath.name (p : PurePath) : String := (p.parts.getLast?).getD ""

/-- Split a character list around its LAST dot: `dotSplitAux cs = some (l, r)`
iff `cs = l ++ [.] ++ r` with `r` dot-free; `none` iff `cs` has no dot. -/
def dotSplitAux : List Char → Option (List Char × List Char)
  | [] => Option.none
  | c :: cs =>
      match dotSplitAux cs with
      | Option.some (l, r) => Option.some (c :: l, r)
      | Option.none => if c = '.' then Option.some ([], cs) else Option.none

/-- Python `Path.stem`/`Path.suffix` on a file name `n`:
with `i = n.rfind (chr 46)`, if `0 < i < len n - 1` the pair is
`(n[:i], n[i:])`, else `(n, "")`. -/
def pyNameSplit (n : String) : String × String :=
  match dotSplitAux n.toList with
  | Option.some (l, r) =>
      if l ≠ [] && r ≠ [] then (String.mk l, String.mk ('.' :: r)) else (n, "")
  | Option.none => (n, "")

/-- `p.stem`. -/
def PurePath.stem (p : PurePath) : String := (pyNameSplit p.name).1

/-- `p.suffix`. -/
def PurePath.suffix (p : PurePath) : String := (pyNameSplit p.name).2

/-- `p.parent`: drop the final component (pathlib: parent of `.` is `.`,
parent of `/` is `/`). -/
def PurePath.parent (p : PurePath) : PurePath := { p with parts := p.parts.dropLast }

/-- Python exceptions raised by this code: always `ValueError(msg)`,
distinguished only by their message. -/
inductive PyError where
  | valueError (msg : String)
deriving DecidableEq, Repr

/-- Message of `ValueError` for an empty / whitespace-only name. -/
def emptyNameMsg : String := "`file_name` cannot be empty."

/-- Message of `ValueError` for a name containing a null byte. -/
def nullByteMsg : String := "`file_name` contains null byte."

/-- Message of `ValueError` for Windows-invalid characters. -/
def invalidCharsMsg : String := "`file_name` contains invalid characters for Windows paths."

/-- Message of `ValueError` for a reserved Windows device-name component. -/
def reservedNameMsg : String := "`file_name` path contains reserved Windows device name component."

/-- Message of `ValueError` for a `file_name` of unsupported type. -/
def typeErrorMsg : String :=
  "\x27file_name\x27 should be of type \x27str\x27, \x27Path\x27, or \x27None\x27."

/-- Message of pathlib's `ValueError` from `with_name` / `with_suffix`
on a path with an empty final component. -/
def emptyPathNameMsg : String := "path has an empty name"

/-- Message of pathlib's `ValueError` from `with_name` for an invalid
replacement name. -/
def invalidNewNameMsg : String := "invalid name"

/-- Message of pathlib's `ValueError` from `with_suffix` for an invalid
suffix. -/
def invalidSuffixMsg : String := "invalid suffix"

/-- `p.with_name(newName)` (CPython 3.11 pathlib): requires the path to
have a non-empty final component and the new name to parse as a single
relative component equal to itself. -/
def PurePath.withName (isNT : Bool) (p : PurePath) (newName : String) : Except PyError PurePath :=
  if p.name = "" then Except.error (PyError.valueError emptyPathNameMsg)
  else
    let q := parsePath isNT newName
    if q.absolute || q.parts ≠ [newName] then Except.error (PyError.valueError invalidNewNameMsg)
    else Except.ok { p with parts := p.parts.dropLast ++ [newName] }

/-- `p.with_suffix(sfx)` (CPython 3.11 pathlib): the new suffix must be
empty or start with a dot, not be a bare dot, and contain no separator;
the path must have a non-empty final component. -/
def PurePath.withSuffix (isNT : Bool) (p : PurePath) (sfx : String) : Except PyError PurePath :=
  if sfx.toList.any (isSep isNT) then Except.error (PyError.valueError invalidSuffixMsg)
  else if (sfx ≠ "" && !(sfx.toList.head? = some '.')) || sfx = "." then
    Except.error (PyError.valueError invalidSuffixMsg)
  else if p.name = "" then Except.error (PyError.valueError emptyPathNameMsg)
  else
    let n :=
      if p.suffix = "" then p.name ++ sfx
      else String.mk (p.name.toList.take (p.name.length - p.suffix.length)) ++ sfx
    Except.ok { p with parts := p.parts.dropLast ++ [n] }

instance {α β : Type} [DecidableEq α] [DecidableEq β] : DecidableEq (Except α β) := fun a b =>
  match a, b with
  | Except.error e, Except.error f =>
      if h : e = f then Decidable.isTrue (congrArg Except.error h)
      else Decidable.isFalse (fun hc => h (Except.error.inj hc))
  | Except.error _, Except.ok _ => Decidable.isFalse (fun hc => Except.noConfusion hc)
  | Except.ok _, Except.error _ => Decidable.isFalse (fun hc => Except.noConfusion hc)
  | Except.ok x, Except.ok y =>
      if h : x = y then Decidable.isTrue (congrArg Except.ok h)
      else Decidable.isFalse (fun hc => h (Except.ok.inj hc))

/-- The possible Python values supplied as `file_name`: `None`, a `str`,
a `Path`, or a value of any other type (e.g. an `int`), which
`isinstance(file_name, (str, Path))` rejects. -/
inductive PyVal where
  | none
  | str (s : String)
  | path (s : String)
  | other (tag : String)
deriving DecidableEq, Repr

/-- `s.upper()` restricted to ASCII case mapping, enough to compare
against the all-ASCII reserved device names. -/
def pyUpper (s : String) : String := String.mk (s.toList.map Char.toUpper)

namespace TidyLogger

def DEFAULT_FILE_NAME : String := "log"

def DEFAULT_FILE_EXTENSION : String := ".log"

/-- The Windows invalid-character set `<>:"/\|?*` (the raw Python string
`r'<>:"/\\|?*'` denotes these nine characters; the doubled backslash in
the raw literal is two backslash characters, collapsed by `set()`). -/
def invalid_chars : List Char := ['<', '>', ':', '\"', '/', '\\', '|', '?', '*']

/-- Reserved Windows device names: `CON PRN AUX NUL COM1-COM9 LPT1-LPT9`. -/
def reserved : List String :=
  ["CON", "PRN", "AUX", "NUL",
   "COM1", "COM2", "COM3", "COM4", "COM5", "COM6", "COM7", "COM8", "COM9",
   "LPT1", "LPT2", "LPT3", "LPT4", "LPT5", "LPT6", "LPT7", "LPT8", "LPT9"]

/-- Body of `_create_file_path` for the `isinstance(file_name, (str, Path))`
branch: normalize through `Path`, validate, then date-suffix / default
the extension. -/
def create_file_path_str (raw : String) (add_date_suffix_to_file_name : Bool)
    (date_suffix : String) (isNT : Bool) : Except PyError PurePath :=
  let p := parsePath isNT raw
  let s := pathToString isNT p
  if isBlank s then Except.error (PyError.valueError emptyNameMsg)
  else if s.toList.contains '\x00' then Except.error (PyError.valueError nullByteMsg)
  else if isNT && s.toList.any (fun ch => invalid_chars.contains ch) then
    Except.error (PyError.valueError invalidCharsMsg)
  else if isNT && p.parts.any (fun part => reserved.contains (pyUpper (PurePath.stem (parsePath isNT part)))) then
    Except.error (PyError.valueError reservedNameMsg)
  else if add_date_suffix_to_file_name then
    let sfx := if p.suffix = "" then DEFAULT_FILE_EXTENSION else p.suffix
    PurePath.withName isNT p (p.stem ++ "_" ++ date_suffix ++ sfx)
  else if p.suffix = "" then PurePath.withSuffix isNT p DEFAULT_FILE_EXTENSION
  else Except.ok p

/-- `TidyLogger._create_file_path(file_name, add_date_suffix_to_file_name)`,
with the current date and the platform passed explicitly. -/
def create_file_path (file_name : PyVal) (add_date_suffix_to_file_name : Bool)
    (date_suffix : String) (isNT : Bool) : Except PyError PurePath :=
  match file_name with
  | PyVal.none =>
      if add_date_suffix_to_file_name then
        Except.ok (parsePath isNT (DEFAULT_FILE_NAME ++ "_" ++ date_suffix ++ DEFAULT_FILE_EXTENSION))
      else
        Except.ok (parsePath isNT (DEFAULT_FILE_NAME ++ DEFAULT_FILE_EXTENSION))
  | PyVal.str raw => create_file_path_str raw add_date_suffix_to_file_name date_suffix isNT
  | PyVal.path raw => create_file_path_str raw add_date_suffix_to_file_name date_suffix isNT
  | PyVal.other _ => Except.error (PyError.valueError typeErrorMsg)

end TidyLogger

/-- The kinds of handler that can be attached to a logger: the two the
facade creates (`logging.FileHandler` / `RotatingFileHandler` and
`logging.StreamHandler`), and handlers attached by other code
(`externalSink`), which the facade does not create but whose presence
on the shared named logger it can observe. -/
inductive SinkKind where
  | fileSink (path : PurePath) (mode : String)
  | rotatingFileSink (path : PurePath) (mode : String) (maxBytes : Nat) (backupCount : Nat)
  | streamSink
  | externalSink (tag : String)
deriving DecidableEq, Repr

/-- A `logging.Handler`: its kind and its own severity threshold
(`setLevel`). -/
structure Handler where
  kind : SinkKind
  level : Int
deriving DecidableEq, Repr

/-- A named `logging.Logger`: its enabled level (`setLevel`) and its
handler list, in attachment order. -/
structure Logger where
  level : Int
  handlers : List Handler
deriving DecidableEq, Repr

/-- The process-wide `logging` registry: `logging.getLogger(n)` for every
name `n` (`getLogger` creates an entry on first use, so the registry is
total). -/
def Registry : Type := String → Logger

/-- Look a logger up by name. -/
def Registry.get (reg : Registry) (n : String) : Logger := reg n

/-- Replace the logger registered under a name. -/
def Registry.set (reg : Registry) (n : String) (lg : Logger) : Registry :=
  fun m => if m = n then lg else reg m

/-- A logger no construction has touched yet: level `NOTSET = 0`, no
handlers. -/
def freshLogger : Logger := { level := 0, handlers := [] }

/-- A registry in which no logger has been configured. -/
def emptyRegistry : Registry := fun _ => freshLogger

/-- `logging` dispatch, second stage: `callHandlers` offers the record to
every attached handler whose own threshold is at most the message level. -/
def Logger.callHandlers (lg : Logger) (msgLevel : Int) : List Handler :=
  lg.handlers.filter (fun h => h.level ≤ msgLevel)

/-- `logging` dispatch for a message logged at `msgLevel` on this logger
(propagation to ancestor loggers not modelled): the logger-level check
(`isEnabledFor`) followed by per-handler filtering; returns the handlers
that emit the message. -/
def Logger.emit (lg : Logger) (msgLevel : Int) : List Handler :=
  if lg.level ≤ msgLevel then lg.callHandlers msgLevel else []

/-- The `logging` severity constants. -/
def DEBUG : Int := 10

def INFO : Int := 20

def WARNING : Int := 30

def ERROR : Int := 40

def CRITICAL : Int := 50

/-- File-system side effects of construction, in program order:
the `_create_file_path` call, `file_path.parent.mkdir(parents=True,
exist_ok=True)`, and opening the log file when the (possibly rotating)
file handler is created. -/
inductive Effect where
  | resolvePath
  | mkdirParents (dir : PurePath)
  | openFile (path : PurePath) (mode : String) (rotating : Bool)
deriving DecidableEq, Repr

namespace TidyLogger

/-- The keyword arguments of `TidyLogger.__init__`, with their Python
defaults. -/
structure InitArgs where
  file_name : PyVal := PyVal.none
  file_mode : String := "a"
  console_level : Int := INFO
  file_level : Int := DEBUG
  name : Option String := Option.none
  add_date_suffix_to_file_name : Bool := true
  use_file_rotation : Bool := false
  max_bytes : Nat := 100 * 1024 * 1024
  backup_count : Nat := 10
deriving Repr

/-- `self.__class__.__name__ if name is None else name`. -/
def InitArgs.effectiveName (a : InitArgs) : String :=
  match a.name with
  | Option.none => "TidyLogger"
  | Option.some n => n

/-- Result of running `__init__`: the registry afterwards, the
file-system effects performed, and whether an exception escaped. -/
structure InitResult where
  registry : Registry
  effects : List Effect
  outcome : Except PyError Unit

/-- The file handler `__init__` creates: `RotatingFileHandler(filename,
mode, maxBytes, backupCount)` when `use_file_rotation`, else
`logging.FileHandler(filename, mode)`. -/
def fileHandlerKind (a : InitArgs) (fp : PurePath) : SinkKind :=
  if a.use_file_rotation then SinkKind.rotatingFileSink fp a.file_mode a.max_bytes a.backup_count
  else SinkKind.fileSink fp a.file_mode

/-- `TidyLogger.__init__`: fetch the logger under the effective name, set
its level to `min(console_level, file_level)`, and — only if it has no
handlers — resolve the file path, make the parent directories, open the
file sink, and attach the file handler then the console handler, each
with its own threshold.  A `ValueError` from `_create_file_path`
escapes after the level was already set and before any directory or
file effect. -/
def init (a : InitArgs) (date_suffix : String) (isNT : Bool) (reg : Registry) : InitResult :=
  let en := a.effectiveName
  let lg := { reg.get en with level := min a.console_level a.file_level }
  let reg1 := reg.set en lg
  if lg.handlers = [] then
    match create_file_path a.file_name a.add_date_suffix_to_file_name date_suffix isNT with
    | Except.error e =>
        { registry := reg1, effects := [Effect.resolvePath], outcome := Except.error e }
    | Except.ok fp =>
        let fileHandler : Handler := { kind := fileHandlerKind a fp, level := a.file_level }
        let consoleHandler : Handler := { kind := SinkKind.streamSink, level := a.console_level }
        { registry := reg1.set en { lg with handlers := [fileHandler, consoleHandler] },
          effects := [Effect.resolvePath, Effect.mkdirParents fp.parent,
                      Effect.openFile fp a.file_mode a.use_file_rotation],
          outcome := Except.ok () }
  else { registry := reg1, effects := [], outcome := Except.ok () }

/-- One iteration record of the `close()` loop: the handler it visited,
and whether its `flush()` and its `close()` succeeded (a `False` means
the call raised and the exception was swallowed by the bare
`except Exception: pass`). -/
structure CloseEvent where
  handler : Handler
  flushOk : Bool
  closeOk : Bool
deriving DecidableEq, Repr

/-- The I/O environment `close()` runs in: which handlers' `flush()` and
`close()` calls succeed.  `close()`'s behaviour must not depend on it —
that is the content of the swallow-failures design. -/
structure SinkEnv where
  flushOk : Handler → Bool
  closeOk : Handler → Bool

/-- The `for handler in list(self.logger.handlers)` loop of `close()`:
iterate over the snapshot, recording the flush/close attempt for each
handler and removing it (`logging.Logger.removeHandler` removes the
first matching entry) from the current handler list. -/
def closeLoop (env : SinkEnv) : List Handler → List Handler → List Handler × List CloseEvent
  | [], current => (current, [])
  | h :: rest, current =>
      let r := closeLoop env rest (current.erase h)
      (r.1, { handler := h, flushOk := env.flushOk h, closeOk := env.closeOk h } :: r.2)

/-- `TidyLogger.close()` for a facade whose logger is registered under
`name`: run the loop over the snapshot of the handler list, and store
the resulting handler list back. -/
def close (env : SinkEnv) (name : String) (reg : Registry) : Registry × List CloseEvent :=
  let lg := reg.get name
  let r := closeLoop env lg.handlers lg.handlers
  (reg.set name { lg with handlers := r.1 }, r.2)

/-- `TidyLogger.debug/info/warning/error/critical`: forward to the
underlying logger at the corresponding severity; the handlers that
emit are given by `Logger.emit`. -/
def log (reg : Registry) (name : String) (msgLevel : Int) : List Handler :=
  (reg.get name).emit msgLevel

end TidyLogger

/-! ### Helper lemmas about strings and dot-splitting -/

theorem toList_append (s t : String) : (s ++ t).toList = s.toList ++ t.toList := by
  cases s; cases t; rfl

theorem mk_toList (s : String) : String.mk s.toList = s := by
  cases s; rfl

theorem mk_append (a b : List Char) : String.mk (a ++ b) = String.mk a ++ String.mk b := rfl

theorem mk_ne_empty (a : List Char) (h : a ≠ []) : String.mk a ≠ "" := by
  intro hc
  exact h (congrArg String.toList hc)

theorem dotSplitAux_eq_none (cs : List Char) (h : '.' ∉ cs) : dotSplitAux cs = Option.none := by
  induction cs with
  | nil => rfl
  | cons c cs ih =>
      have hc : ¬ c = '.' := fun hc => h (hc ▸ List.mem_cons_self c cs)
      have hcs : '.' ∉ cs := fun hm => h (List.mem_cons_of_mem _ hm)
      simp [dotSplitAux, ih hcs, hc]

theorem dotSplitAux_none_not_mem (cs : List Char) (h : dotSplitAux cs = Option.none) :
    '.' ∉ cs := by
  induction cs with
  | nil => simp
  | cons c cs ih =>
      simp only [dotSplitAux] at h
      cases hd : dotSplitAux cs with
      | some p => rw [hd] at h; exact absurd h (by simp)
      | none =>
          rw [hd] at h
          by_cases hc : c = '.'
          · rw [if_pos hc] at h; exact absurd h (by simp)
          · rw [if_neg hc] at h
            intro hm
            rcases List.mem_cons.mp hm with h1 | h2
            · exact hc h1.symm
            · exact ih hd h2

theorem dotSplitAux_append (a b : List Char) (h : '.' ∉ b) :
    dotSplitAux (a ++ '.' :: b) = Option.some (a, b) := by
  induction a with
  | nil => simp [dotSplitAux, dotSplitAux_eq_none b h]
  | cons c a ih => simp [dotSplitAux, ih]

theorem dotSplitAux_spec (cs l r : List Char) (h : dotSplitAux cs = Option.some (l, r)) :
    cs = l ++ '.' :: r ∧ '.' ∉ r := by
  induction cs generalizing l r with
  | nil => exact absurd h (by simp [dotSplitAux])
  | cons c cs ih =>
      simp only [dotSplitAux] at h
      cases hd : dotSplitAux cs with
      | some p =>
          rw [hd] at h
          obtain ⟨l', r'⟩ := p
          simp only [Option.some.injEq, Prod.mk.injEq] at h
          obtain ⟨h1, h2⟩ := h
          obtain ⟨hcs, hr⟩ := ih l' r' hd
          subst h1 h2 hcs
          exact ⟨rfl, hr⟩
      | none =>
          rw [hd] at h
          by_cases hc : c = '.'
          · rw [if_pos hc] at h
            simp only [Option.some.injEq, Prod.mk.injEq] at h
            obtain ⟨h1, h2⟩ := h
            subst h1 h2 hc
            exact ⟨rfl, dotSplitAux_none_not_mem _ hd⟩
          · rw [if_neg hc] at h
            exact absurd h (by simp)

theorem pyNameSplit_concat (a b : List Char) (ha : a ≠ []) (hb : b ≠ []) (hdot : '.' ∉ b) :
    pyNameSplit (String.mk (a ++ '.' :: b)) = (String.mk a, String.mk ('.' :: b)) := by
  unfold pyNameSplit
  rw [show (String.mk (a ++ '.' :: b)).toList = a ++ '.' :: b from rfl,
      dotSplitAux_append a b hdot]
  simp [ha, hb]

theorem pyNameSplit_eq_of_some (n : String) (l r : List Char)
    (hd : dotSplitAux n.toList = Option.some (l, r)) :
    pyNameSplit n =
      if l ≠ [] && r ≠ [] then (String.mk l, String.mk ('.' :: r)) else (n, "") := by
  unfold pyNameSplit
  rw [hd]

theorem pyNameSplit_eq_of_none (n : String) (hd : dotSplitAux n.toList = Option.none) :
    pyNameSplit n = (n, "") := by
  unfold pyNameSplit
  rw [hd]

theorem pyNameSplit_of_suffix_empty (n : String) (h : (pyNameSplit n).2 = "") :
    (pyNameSplit n).1 = n := by
  cases hd : dotSplitAux n.toList with
  | none => rw [pyNameSplit_eq_of_none n hd]
  | some p =>
      obtain ⟨l, r⟩ := p
      rw [pyNameSplit_eq_of_some n l r hd] at h ⊢
      by_cases hc : (l ≠ [] && r ≠ []) = true
      · rw [if_pos hc] at h
        exact absurd h (mk_ne_empty _ (by simp))
      · rw [if_neg hc]

theorem pyNameSplit_of_suffix_ne (n : String) (h : (pyNameSplit n).2 ≠ "") :
    ∃ l r, n.toList = l ++ '.' :: r ∧ '.' ∉ r ∧ l ≠ [] ∧ r ≠ [] ∧
      (pyNameSplit n).1 = String.mk l ∧ (pyNameSplit n).2 = String.mk ('.' :: r) := by
  cases hd : dotSplitAux n.toList with
  | none => rw [pyNameSplit_eq_of_none n hd] at h; exact absurd rfl h
  | some p =>
      obtain ⟨l, r⟩ := p
      rw [pyNameSplit_eq_of_some n l r hd] at h ⊢
      by_cases hc : (l ≠ [] && r ≠ []) = true
      · rw [if_pos hc] at h ⊢
        obtain ⟨hcs, hr⟩ := dotSplitAux_spec _ _ _ hd
        simp only [Bool.and_eq_true, decide_eq_true_eq] at hc
        exact ⟨l, r, hcs, hr, hc.1, hc.2, rfl, rfl⟩
      · rw [if_neg hc] at h
        exact absurd rfl h

/-! ### Helper lemmas about path parsing -/

theorem splitPartsAux_no_sep (isNT : Bool) (cs acc : List Char)
    (h : ∀ c ∈ cs, isSep isNT c = false) :
    splitPartsAux isNT cs acc = [String.mk (acc.reverse ++ cs)] := by
  induction cs generalizing acc with
  | nil => simp [splitPartsAux]
  | cons c cs ih =>
      have hc := h c (List.mem_cons_self c cs)
      rw [splitPartsAux, if_neg (by simp [hc]),
          ih (c :: acc) (fun d hd => h d (List.mem_cons_of_mem _ hd))]
      simp

theorem parsePath_single (isNT : Bool) (s : String) (hne : s ≠ "") (hdot : s ≠ ".")
    (h : ∀ c ∈ s.toList, isSep isNT c = false) :
    parsePath isNT s = { absolute := false, parts := [s] } := by
  unfold parsePath
  rw [splitPartsAux_no_sep isNT s.toList [] h]
  have habs : (match s.toList with | [] => false | c :: _ => isSep isNT c) = false := by
    cases hs : s.toList with
    | nil => rfl
    | cons c cs => exact h c (by rw [hs]; exact List.mem_cons_self c cs)
  rw [habs]
  simp [mk_toList, hne, hdot]

theorem splitPartsAux_chars (isNT : Bool) (cs acc : List Char)
    (hacc : ∀ c ∈ acc, isSep isNT c = false) :
    ∀ q ∈ splitPartsAux isNT cs acc, ∀ c ∈ q.toList, isSep isNT c = false := by
  induction cs generalizing acc with
  | nil =>
      intro q hq c hc
      simp only [splitPartsAux, List.mem_singleton] at hq
      subst hq
      exact hacc c (List.mem_reverse.mp hc)
  | cons d cs ih =>
      intro q hq c hc
      by_cases hd : isSep isNT d = true
      · rw [splitPartsAux, if_pos hd] at hq
        rcases List.mem_cons.mp hq with h1 | h2
        · subst h1; exact hacc c (List.mem_reverse.mp hc)
        · exact ih [] (by simp) q h2 c hc
      · rw [splitPartsAux, if_neg hd] at hq
        refine ih (d :: acc) ?_ q hq c hc
        intro e he
        rcases List.mem_cons.mp he with h1 | h2
        · subst h1; exact Bool.not_eq_true _ ▸ hd
        · exact hacc e h2

theorem parsePath_parts_chars (isNT : Bool) (s : String) :
    ∀ q ∈ (parsePath isNT s).parts, ∀ c ∈ q.toList, isSep isNT c = false := by
  intro q hq c hc
  unfold parsePath at hq
  simp only [List.mem_filter] at hq
  exact splitPartsAux_chars isNT s.toList [] (by simp) q hq.1 c hc

theorem parsePath_parts_ok (isNT : Bool) (s : String) :
    ∀ q ∈ (parsePath isNT s).parts, q ≠ "" ∧ q ≠ "." := by
  intro q hq
  unfold parsePath at hq
  simp only [List.mem_filter, Bool.and_eq_true, decide_eq_true_eq] at hq
  exact hq.2

theorem name_chars (isNT : Bool) (s : String) :
    ∀ c ∈ (parsePath isNT s).name.toList, isSep isNT c = false := by
  intro c hc
  unfold PurePath.name at hc
  cases hg : (parsePath isNT s).parts.getLast? with
  | none => rw [hg] at hc; exact absurd hc (by simp)
  | some q =>
      rw [hg] at hc
      exact parsePath_parts_chars isNT s q (List.mem_of_mem_getLast? (Option.mem_def.mpr hg)) c hc

theorem isSep_dot (isNT : Bool) : isSep isNT '.' = false := by
  cases isNT <;> decide

theorem isSep_underscore (isNT : Bool) : isSep isNT '_' = false := by
  cases isNT <;> decide

/-! ### Helper lemmas about the facade state machine -/

theorem Registry.get_set_self (reg : Registry) (n : String) (lg : Logger) :
    (reg.set n lg).get n = lg := by
  simp [Registry.get, Registry.set]

theorem Registry.get_set_ne (reg : Registry) (n m : String) (lg : Logger) (h : m ≠ n) :
    (reg.set n lg).get m = reg.get m := by
  simp [Registry.get, Registry.set, h]

theorem init_guarded (a : TidyLogger.InitArgs) (d : String) (nt : Bool) (reg : Registry)
    (h : ¬ (reg.get a.effectiveName).handlers = []) :
    TidyLogger.init a d nt reg =
      { registry := reg.set a.effectiveName
          { reg.get a.effectiveName with level := min a.console_level a.file_level },
        effects := [], outcome := Except.ok () } := by
  simp only [TidyLogger.init]
  rw [if_neg h]

theorem init_resolve_error (a : TidyLogger.InitArgs) (d : String) (nt : Bool) (reg : Registry)
    (e : PyError)
    (hfresh : (reg.get a.effectiveName).handlers = [])
    (herr : TidyLogger.create_file_path a.file_name a.add_date_suffix_to_file_name d nt
      = Except.error e) :
    TidyLogger.init a d nt reg =
      { registry := reg.set a.effectiveName
          { reg.get a.effectiveName with level := min a.console_level a.file_level },
        effects := [Effect.resolvePath], outcome := Except.error e } := by
  simp only [TidyLogger.init]
  rw [if_pos hfresh, herr]

theorem init_fresh_ok (a : TidyLogger.InitArgs) (d : String) (nt : Bool) (reg : Registry)
    (fp : PurePath)
    (hfresh : (reg.get a.effectiveName).handlers = [])
    (hok : TidyLogger.create_file_path a.file_name a.add_date_suffix_to_file_name d nt
      = Except.ok fp) :
    (TidyLogger.init a d nt reg).outcome = Except.ok () ∧
    (TidyLogger.init a d nt reg).effects =
      [Effect.resolvePath, Effect.mkdirParents fp.parent,
       Effect.openFile fp a.file_mode a.use_file_rotation] ∧
    (TidyLogger.init a d nt reg).registry.get a.effectiveName =
      { level := min a.console_level a.file_level,
        handlers := [{ kind := TidyLogger.fileHandlerKind a fp, level := a.file_level },
                     { kind := SinkKind.streamSink, level := a.console_level }] } := by
  simp only [TidyLogger.init]
  rw [if_pos hfresh, hok]
  refine ⟨rfl, rfl, ?_⟩
  rw [Registry.get_set_self]

theorem init_get_ne (a : TidyLogger.InitArgs) (d : String) (nt : Bool) (reg : Registry)
    (n : String) (h : n ≠ a.effectiveName) :
    (TidyLogger.init a d nt reg).registry.get n = reg.get n := by
  simp only [TidyLogger.init]
  split
  · split
    · exact Registry.get_set_ne _ _ _ _ h
    · exact (Registry.get_set_ne _ _ _ _ h).trans (Registry.get_set_ne _ _ _ _ h)
  · exact Registry.get_set_ne _ _ _ _ h

theorem init_ok_handlers_ne (a : TidyLogger.InitArgs) (d : String) (nt : Bool) (reg : Registry)
    (hout : (TidyLogger.init a d nt reg).outcome = Except.ok ()) :
    ((TidyLogger.init a d nt reg).registry.get a.effectiveName).handlers ≠ [] := by
  by_cases hfresh : (reg.get a.effectiveName).handlers = []
  · cases hres : TidyLogger.create_file_path a.file_name a.add_date_suffix_to_file_name d nt with
    | error e =>
        rw [init_resolve_error a d nt reg e hfresh hres] at hout
        exact absurd hout (by simp)
    | ok fp =>
        rw [(init_fresh_ok a d nt reg fp hfresh hres).2.2]
        simp
  · rw [init_guarded a d nt reg hfresh, Registry.get_set_self]
    exact hfresh

theorem closeLoop_self (env : TidyLogger.SinkEnv) (xs : List Handler) :
    (TidyLogger.closeLoop env xs xs).1 = [] := by
  induction xs with
  | nil => rfl
  | cons x xs ih =>
      show (TidyLogger.closeLoop env xs ((x :: xs).erase x)).1 = []
      rw [List.erase_cons_head]
      exact ih

theorem closeLoop_events (env : TidyLogger.SinkEnv) (xs : List Handler) (cur : List Handler) :
    ((TidyLogger.closeLoop env xs cur).2).map TidyLogger.CloseEvent.handler = xs := by
  induction xs generalizing cur with
  | nil => rfl
  | cons x xs ih =>
      show TidyLogger.CloseEvent.handler
          { handler := x, flushOk := env.flushOk x, closeOk := env.closeOk x } ::
          ((TidyLogger.closeLoop env xs (cur.erase x)).2).map TidyLogger.CloseEvent.handler
        = x :: xs
      rw [ih]

theorem close_get_self (env : TidyLogger.SinkEnv) (name : String) (reg : Registry) :
    ((TidyLogger.close env name reg).1).get name = { reg.get name with handlers := [] } := by
  simp only [TidyLogger.close]
  rw [Registry.get_set_self, closeLoop_self]

theorem close_get_ne (env : TidyLogger.SinkEnv) (name : String) (reg : Registry)
    (n : String) (h : n ≠ name) :
    ((TidyLogger.close env name reg).1).get n = reg.get n := by
  simp only [TidyLogger.close]
  exact Registry.get_set_ne _ _ _ _ h

theorem close_events (env : TidyLogger.SinkEnv) (name : String) (reg : Registry) :
    ((TidyLogger.close env name reg).2).map TidyLogger.CloseEvent.handler
      = (reg.get name).handlers := by
  simp only [TidyLogger.close]
  exact closeLoop_events env _ _

theorem isSep_digit (isNT : Bool) (c : Char) (h : c.isDigit = true) : isSep isNT c = false := by
  have h2 : ¬ c = '/' := by
    intro hc; subst hc; exact absurd h (by decide)
  have h3 : ¬ c = '\\' := by
    intro hc; subst hc; exact absurd h (by decide)
  simp [isSep, h2, h3]

theorem str_ext (s t : String) (h : s.toList = t.toList) : s = t :=
  (mk_toList s).symm.trans ((congrArg String.mk h).trans (mk_toList t))

theorem name_concat (b : Bool) (l : List String) (x : String) :
    PurePath.name { absolute := b, parts := l ++ [x] } = x := by
  simp [PurePath.name, List.getLast?_concat]

theorem withName_ok (isNT : Bool) (p : PurePath) (nn : String) (fp : PurePath)
    (h : PurePath.withName isNT p nn = Except.ok fp) :
    p.name ≠ "" ∧ fp = { p with parts := p.parts.dropLast ++ [nn] } := by
  simp only [PurePath.withName] at h
  split at h
  · exact absurd h (by simp)
  · split at h
    · exact absurd h (by simp)
    · rename_i h1 h2
      simp only [Except.ok.injEq] at h
      exact ⟨h1, h.symm⟩

theorem create_file_path_str_ok_true (raw date : String) (isNT : Bool) (fp : PurePath)
    (h : TidyLogger.create_file_path_str raw true date isNT = Except.ok fp) :
    PurePath.withName isNT (parsePath isNT raw)
      ((parsePath isNT raw).stem ++ "_" ++ date ++
        (if (parsePath isNT raw).suffix = "" then TidyLogger.DEFAULT_FILE_EXTENSION
         else (parsePath isNT raw).suffix)) = Except.ok fp := by
  simp only [TidyLogger.create_file_path_str] at h
  split at h
  · exact absurd h (by simp)
  split at h
  · exact absurd h (by simp)
  split at h
  · exact absurd h (by simp)
  split at h
  · exact absurd h (by simp)
  rw [if_pos trivial] at h
  exact h

theorem pyNameSplit_stem_date (st date : String) (r : List Char)
    (hr : r ≠ []) (hdot : '.' ∉ r) :
    pyNameSplit (st ++ "_" ++ date ++ String.mk ('.' :: r))
      = (st ++ "_" ++ date, String.mk ('.' :: r)) := by
  have ha : (st ++ "_" ++ date).toList = st.toList ++ '_' :: date.toList := by
    simp [toList_append]
  have hlist : (st ++ "_" ++ date ++ String.mk ('.' :: r)).toList
      = (st.toList ++ '_' :: date.toList) ++ '.' :: r := by
    rw [toList_append, ha]; rfl
  have hd : dotSplitAux (st ++ "_" ++ date ++ String.mk ('.' :: r)).toList
      = Option.some (st.toList ++ '_' :: date.toList, r) := by
    rw [hlist]
    exact dotSplitAux_append _ _ hdot
  rw [pyNameSplit_eq_of_some _ _ _ hd, if_pos (by simp [hr])]
  have hmk : String.mk (st.toList ++ '_' :: date.toList) = st ++ "_" ++ date :=
    str_ext _ _ (by rw [ha]; rfl)
  rw [hmk]

/-- C2: for every valid name input (string or path) accepted by the
resolver, `addDateSuffix = true` yields a path whose stem is the
original stem followed by an underscore and the date token, whose
extension is the original extension when non-empty and `.log` when it
was empty, and whose parent directory (and absoluteness) is preserved
unchanged.  A `Path` input behaves exactly like the same `str` input. -/
theorem C2_date_suffix_resolution (raw date : String) (isNT : Bool) (fp : PurePath)
    (hok : TidyLogger.create_file_path (PyVal.str raw) true date isNT = Except.ok fp) :
    TidyLogger.create_file_path (PyVal.path raw) true date isNT = Except.ok fp ∧
    fp.stem = (parsePath isNT raw).stem ++ "_" ++ date ∧
    fp.suffix = (if (parsePath isNT raw).suffix = "" then TidyLogger.DEFAULT_FILE_EXTENSION
                 else (parsePath isNT raw).suffix) ∧
    fp.parent = (parsePath isNT raw).parent ∧
    fp.absolute = (parsePath isNT raw).absolute := by
  have hok' : TidyLogger.create_file_path_str raw true date isNT = Except.ok fp := hok
  have hwn := create_file_path_str_ok_true raw date isNT fp hok'
  obtain ⟨hname, hfp⟩ := withName_ok _ _ _ _ hwn
  have hn : PurePath.name { parsePath isNT raw with
      parts := (parsePath isNT raw).parts.dropLast ++
        [(parsePath isNT raw).stem ++ "_" ++ date ++
          (if (parsePath isNT raw).suffix = "" then TidyLogger.DEFAULT_FILE_EXTENSION
           else (parsePath isNT raw).suffix)] }
      = (parsePath isNT raw).stem ++ "_" ++ date ++
          (if (parsePath isNT raw).suffix = "" then TidyLogger.DEFAULT_FILE_EXTENSION
           else (parsePath isNT raw).suffix) :=
    name_concat _ _ _
  have hsplit : pyNameSplit
      ((parsePath isNT raw).stem ++ "_" ++ date ++
        (if (parsePath isNT raw).suffix = "" then TidyLogger.DEFAULT_FILE_EXTENSION
         else (parsePath isNT raw).suffix))
      = ((parsePath isNT raw).stem ++ "_" ++ date,
         (if (parsePath isNT raw).suffix = "" then TidyLogger.DEFAULT_FILE_EXTENSION
          else (parsePath isNT raw).suffix)) := by
    by_cases hsfx : (parsePath isNT raw).suffix = ""
    · have hred : (if (parsePath isNT raw).suffix = "" then TidyLogger.DEFAULT_FILE_EXTENSION
          else (parsePath isNT raw).suffix) = String.mk ('.' :: ['l', 'o', 'g']) := by
        rw [if_pos hsfx]; rfl
      rw [hred]
      exact pyNameSplit_stem_date _ date ['l', 'o', 'g'] (by decide) (by decide)
    · obtain ⟨l, r, hnl, hdot, hl, hr, hstem, hsuffix⟩ :=
        pyNameSplit_of_suffix_ne (parsePath isNT raw).name hsfx
      have hred : (if (parsePath isNT raw).suffix = "" then TidyLogger.DEFAULT_FILE_EXTENSION
          else (parsePath isNT raw).suffix) = String.mk ('.' :: r) := by
        rw [if_neg hsfx]; exact hsuffix
      rw [hred]
      exact pyNameSplit_stem_date _ date r hr hdot
  subst hfp
  refine ⟨hok, ?_, ?_, ?_, rfl⟩
  · show (pyNameSplit (PurePath.name _)).1 = _
    rw [hn, hsplit]
  · show (pyNameSplit (PurePath.name _)).2 = _
    rw [hn, hsplit]
  · show PurePath.parent _ = PurePath.parent _
    simp only [PurePath.parent, List.dropLast_concat]

/-- Witness for C2 at the spec's own example
`resolve("parent_dir/test_log.txt", true)` with date `20240102`. -/
theorem C2_date_suffix_resolution_witness :
    TidyLogger.create_file_path (PyVal.path "parent_dir/test_log.txt") true "20240102" false
      = Except.ok { absolute := false, parts := ["parent_dir", "test_log_20240102.txt"] } ∧
    PurePath.stem { absolute := false, parts := ["parent_dir", "test_log_20240102.txt"] }
      = (parsePath false "parent_dir/test_log.txt").stem ++ "_" ++ "20240102" := by
  have h := C2_date_suffix_resolution "parent_dir/test_log.txt" "20240102" false
    { absolute := false, parts := ["parent_dir", "test_log_20240102.txt"] } (by decide)
  exact ⟨h.1, h.2.1⟩

/-- C7: with `file_name = None`, `addDateSuffix = true` resolves to the
relative path `log_{date}.log` (default stem, date token, default
extension, parent the current directory), and `addDateSuffix = false`
resolves to `log.log`. -/
theorem C7_default_name (date : String) (isNT : Bool)
    (hdate : date.toList.all Char.isDigit = true) :
    (∃ p : PurePath,
       TidyLogger.create_file_path PyVal.none true date isNT = Except.ok p ∧
       p.absolute = false ∧
       p.parts = [TidyLogger.DEFAULT_FILE_NAME ++ "_" ++ date ++ TidyLogger.DEFAULT_FILE_EXTENSION] ∧
       p.stem = TidyLogger.DEFAULT_FILE_NAME ++ "_" ++ date ∧
       p.suffix = TidyLogger.DEFAULT_FILE_EXTENSION ∧
       p.parent.parts = [] ∧ pathToString isNT p.parent = ".") ∧
    (∃ q : PurePath,
       TidyLogger.create_file_path PyVal.none false date isNT = Except.ok q ∧
       q.absolute = false ∧ q.parts = ["log.log"] ∧
       q.stem = TidyLogger.DEFAULT_FILE_NAME ∧ q.suffix = TidyLogger.DEFAULT_FILE_EXTENSION ∧
       q.parent.parts = [] ∧ pathToString isNT q.parent = ".") := by
  have htl : (TidyLogger.DEFAULT_FILE_NAME ++ "_" ++ date ++ TidyLogger.DEFAULT_FILE_EXTENSION).toList
      = 'l' :: 'o' :: 'g' :: '_' :: (date.toList ++ ['.', 'l', 'o', 'g']) := by
    simp [TidyLogger.DEFAULT_FILE_NAME, TidyLogger.DEFAULT_FILE_EXTENSION, toList_append]
  have hne : TidyLogger.DEFAULT_FILE_NAME ++ "_" ++ date ++ TidyLogger.DEFAULT_FILE_EXTENSION ≠ "" := by
    intro h
    have h2 := congrArg String.toList h
    rw [htl] at h2
    exact absurd h2 (by simp)
  have hdot : TidyLogger.DEFAULT_FILE_NAME ++ "_" ++ date ++ TidyLogger.DEFAULT_FILE_EXTENSION ≠ "." := by
    intro h
    have h2 := congrArg String.toList h
    rw [htl] at h2
    exact absurd h2 (by simp)
  have hchars : ∀ c ∈ (TidyLogger.DEFAULT_FILE_NAME ++ "_" ++ date ++ TidyLogger.DEFAULT_FILE_EXTENSION).toList,
      isSep isNT c = false := by
    intro c hc
    rw [htl] at hc
    simp only [List.mem_cons, List.mem_append, List.not_mem_nil, or_false] at hc
    rcases hc with rfl | rfl | rfl | rfl | hc | rfl | rfl | rfl | rfl
    · cases isNT <;> decide
    · cases isNT <;> decide
    · cases isNT <;> decide
    · cases isNT <;> decide
    · exact isSep_digit isNT c (List.all_eq_true.mp hdate c hc)
    · cases isNT <;> decide
    · cases isNT <;> decide
    · cases isNT <;> decide
    · cases isNT <;> decide
  have hparse := parsePath_single isNT _ hne hdot hchars
  constructor
  · refine ⟨⟨false, [TidyLogger.DEFAULT_FILE_NAME ++ "_" ++ date ++ TidyLogger.DEFAULT_FILE_EXTENSION]⟩,
      ?_, rfl, rfl, ?_, ?_, rfl, ?_⟩
    · show Except.ok (parsePath isNT
          (TidyLogger.DEFAULT_FILE_NAME ++ "_" ++ date ++ TidyLogger.DEFAULT_FILE_EXTENSION))
        = _
      rw [hparse]
    · show (pyNameSplit ("log" ++ "_" ++ date ++ String.mk ('.' :: ['l', 'o', 'g']))).1
        = "log" ++ "_" ++ date
      rw [pyNameSplit_stem_date "log" date ['l', 'o', 'g'] (by decide) (by decide)]
    · show (pyNameSplit ("log" ++ "_" ++ date ++ String.mk ('.' :: ['l', 'o', 'g']))).2
        = String.mk ('.' :: ['l', 'o', 'g'])
      rw [pyNameSplit_stem_date "log" date ['l', 'o', 'g'] (by decide) (by decide)]
    · rfl
  · refine ⟨{ absolute := false, parts := ["log.log"] }, ?_, rfl, rfl, ?_, ?_, rfl, rfl⟩
    · cases isNT <;> rfl
    · decide
    · decide

/-- C1: when the logger under the effective name already has handlers,
construction attaches no sinks and performs no file-system effect (the
effect trace is empty, so no path resolution, no directory creation, no
file opening — the guard precedes every effect); and after any
successful construction, a further construction with the same effective
name leaves every handler list unchanged and performs no effect, so a
name maps to at most one set of sinks across repeated constructions. -/
theorem C1_guard_idempotent (a a' : TidyLogger.InitArgs) (d d' : String) (nt nt' : Bool)
    (reg : Registry) (hname : a'.effectiveName = a.effectiveName) :
    ((reg.get a.effectiveName).handlers ≠ [] →
      (TidyLogger.init a d nt reg).effects = [] ∧
      ∀ n, ((TidyLogger.init a d nt reg).registry.get n).handlers = (reg.get n).handlers) ∧
    ((TidyLogger.init a d nt reg).outcome = Except.ok () →
      (TidyLogger.init a' d' nt' (TidyLogger.init a d nt reg).registry).effects = [] ∧
      ∀ n, ((TidyLogger.init a' d' nt' (TidyLogger.init a d nt reg).registry).registry.get n).handlers
        = ((TidyLogger.init a d nt reg).registry.get n).handlers) := by
  constructor
  · intro h
    rw [init_guarded a d nt reg h]
    refine ⟨rfl, ?_⟩
    intro n
    by_cases hn : n = a.effectiveName
    · subst hn
      rw [Registry.get_set_self]
    · rw [Registry.get_set_ne _ _ _ _ hn]
  · intro hok
    have hne := init_ok_handlers_ne a d nt reg hok
    have h2 : ¬ ((TidyLogger.init a d nt reg).registry.get a'.effectiveName).handlers = [] := by
      rw [hname]; exact hne
    rw [init_guarded a' d' nt' _ h2]
    refine ⟨rfl, ?_⟩
    intro n
    by_cases hn : n = a'.effectiveName
    · subst hn
      rw [Registry.get_set_self]
    · rw [Registry.get_set_ne _ _ _ _ hn]

/-- Witness for C1: constructing twice with all-default arguments; the
second construction performs no effects and changes no handler list. -/
theorem C1_guard_idempotent_witness :
    (TidyLogger.init { } "20240102" false
        (TidyLogger.init { } "20240102" false emptyRegistry).registry).effects = [] ∧
    ((TidyLogger.init { } "20240102" false
        (TidyLogger.init { } "20240102" false emptyRegistry).registry).registry.get "TidyLogger").handlers
      = ((TidyLogger.init { } "20240102" false emptyRegistry).registry.get "TidyLogger").handlers := by
  have h := (C1_guard_idempotent { } { } "20240102" "20240102" false false emptyRegistry rfl).2
    (by decide)
  exact ⟨h.1, h.2 "TidyLogger"⟩

/-- C10: construction sets the shared logger's level to
`min(consoleLevel, fileLevel)` even when the idempotency guard then
attaches nothing: with handlers already present, the registered logger
keeps its handlers but its level becomes the new minimum, every other
logger is untouched, and no effect is performed. -/
theorem C10_level_mutation (a : TidyLogger.InitArgs) (d : String) (nt : Bool) (reg : Registry)
    (h : (reg.get a.effectiveName).handlers ≠ []) :
    (TidyLogger.init a d nt reg).registry.get a.effectiveName
      = { level := min a.console_level a.file_level,
          handlers := (reg.get a.effectiveName).handlers } ∧
    (∀ n, n ≠ a.effectiveName → (TidyLogger.init a d nt reg).registry.get n = reg.get n) ∧
    (TidyLogger.init a d nt reg).effects = [] ∧
    (TidyLogger.init a d nt reg).outcome = Except.ok () := by
  rw [init_guarded a d nt reg h]
  refine ⟨?_, ?_, rfl, rfl⟩
  · rw [Registry.get_set_self]
  · intro n hn
    exact Registry.get_set_ne _ _ _ _ hn

/-- Witness for C10: re-constructing under the default name with
different levels mutates the existing logger's level to `min 40 30`
while its handlers stay. -/
theorem C10_level_mutation_witness :
    (TidyLogger.init { console_level := 40, file_level := 30 } "20240102" false
        (TidyLogger.init { } "20240102" false emptyRegistry).registry).registry.get "TidyLogger"
      = { level := min 40 30,
          handlers := ((TidyLogger.init { } "20240102" false emptyRegistry).registry.get "TidyLogger").handlers } ∧
    (TidyLogger.init { console_level := 40, file_level := 30 } "20240102" false
        (TidyLogger.init { } "20240102" false emptyRegistry).registry).effects = [] := by
  have h := C10_level_mutation { console_level := 40, file_level := 30 } "20240102" false
    (TidyLogger.init { } "20240102" false emptyRegistry).registry (by decide)
  exact ⟨h.1, h.2.2.1⟩

/-- C6: on a fresh construction the logger's enabled level is
`min(consoleLevel, fileLevel)`, the file sink keeps threshold
`fileLevel` and the console sink threshold `consoleLevel`; a message
below the minimum reaches no sink, and a message at or above it reaches
each sink exactly when that sink's own threshold allows it. -/
theorem C6_min_level_dispatch (a : TidyLogger.InitArgs) (d : String) (nt : Bool)
    (reg : Registry) (fp : PurePath)
    (hfresh : (reg.get a.effectiveName).handlers = [])
    (hres : TidyLogger.create_file_path a.file_name a.add_date_suffix_to_file_name d nt
      = Except.ok fp) :
    (TidyLogger.init a d nt reg).outcome = Except.ok () ∧
    ((TidyLogger.init a d nt reg).registry.get a.effectiveName).level
      = min a.console_level a.file_level ∧
    ((TidyLogger.init a d nt reg).registry.get a.effectiveName).handlers
      = [{ kind := TidyLogger.fileHandlerKind a fp, level := a.file_level },
         { kind := SinkKind.streamSink, level := a.console_level }] ∧
    (∀ m : Int, m < min a.console_level a.file_level →
      ((TidyLogger.init a d nt reg).registry.get a.effectiveName).emit m = []) ∧
    (∀ m : Int, min a.console_level a.file_level ≤ m →
      (({ kind := TidyLogger.fileHandlerKind a fp, level := a.file_level } : Handler)
          ∈ ((TidyLogger.init a d nt reg).registry.get a.effectiveName).emit m
        ↔ a.file_level ≤ m) ∧
      (({ kind := SinkKind.streamSink, level := a.console_level } : Handler)
          ∈ ((TidyLogger.init a d nt reg).registry.get a.effectiveName).emit m
        ↔ a.console_level ≤ m)) := by
  have h := init_fresh_ok a d nt reg fp hfresh hres
  rw [h.2.2]
  refine ⟨h.1, rfl, rfl, ?_, ?_⟩
  · intro m hm
    rw [Logger.emit, if_neg (by exact not_le.mpr hm)]
  · intro m hm
    rw [Logger.emit, if_pos hm]
    constructor
    · simp [Logger.callHandlers, List.mem_filter]
    · simp [Logger.callHandlers, List.mem_filter]

/-- Witness for C6: with the default levels (console `INFO = 20`, file
`DEBUG = 10`) the logger level is `10`; a message at level `5` reaches
no sink, and a message at `15` reaches only the file sink. -/
theorem C6_min_level_dispatch_witness :
    ((TidyLogger.init { } "20240102" false emptyRegistry).registry.get "TidyLogger").level = 10 ∧
    TidyLogger.log (TidyLogger.init { } "20240102" false emptyRegistry).registry "TidyLogger" 5
      = [] ∧
    (({ kind := SinkKind.streamSink, level := 20 } : Handler)
        ∈ TidyLogger.log (TidyLogger.init { } "20240102" false emptyRegistry).registry
            "TidyLogger" 15
      ↔ (20 : Int) ≤ 15) := by
  have h := C6_min_level_dispatch { } "20240102" false emptyRegistry
    { absolute := false, parts := ["log_20240102.log"] } (by decide) (by decide)
  refine ⟨h.2.1.trans (by decide), h.2.2.2.1 5 (by decide), ?_⟩
  exact (h.2.2.2.2 15 (by decide)).2

/-- C3: `close()` visits every attached sink — recording the success or
swallowed failure of its `flush()` and `close()` — and detaches all of
them; the resulting state does not depend on which flush/close calls
failed (no error escapes); a second `close()` produces no events and
changes nothing; and the name can afterwards be re-initialized, a fresh
construction attaching both sinks again. -/
theorem C3_close_release (env env2 : TidyLogger.SinkEnv) (name : String) (reg : Registry)
    (a : TidyLogger.InitArgs) (d : String) (nt : Bool) (fp : PurePath)
    (hname : a.effectiveName = name)
    (hres : TidyLogger.create_file_path a.file_name a.add_date_suffix_to_file_name d nt
      = Except.ok fp) :
    ((TidyLogger.close env name reg).1.get name).handlers = [] ∧
    ((TidyLogger.close env name reg).2).map TidyLogger.CloseEvent.handler
      = (reg.get name).handlers ∧
    (∀ n, (TidyLogger.close env name reg).1.get n = (TidyLogger.close env2 name reg).1.get n) ∧
    (TidyLogger.close env2 name (TidyLogger.close env name reg).1).2 = [] ∧
    (∀ n, (TidyLogger.close env2 name (TidyLogger.close env name reg).1).1.get n
      = (TidyLogger.close env name reg).1.get n) ∧
    ((TidyLogger.init a d nt (TidyLogger.close env name reg).1).registry.get name).handlers
      = [{ kind := TidyLogger.fileHandlerKind a fp, level := a.file_level },
         { kind := SinkKind.streamSink, level := a.console_level }] := by
  have hfresh : ((TidyLogger.close env name reg).1.get a.effectiveName).handlers = [] := by
    rw [hname, close_get_self]
  refine ⟨?_, close_events env name reg, ?_, ?_, ?_, ?_⟩
  · rw [close_get_self]
  · intro n
    by_cases hn : n = name
    · subst hn
      rw [close_get_self, close_get_self]
    · rw [close_get_ne _ _ _ _ hn, close_get_ne _ _ _ _ hn]
  · show (TidyLogger.closeLoop env2 _ _).2 = []
    rw [close_get_self]
    rfl
  · intro n
    by_cases hn : n = name
    · subst hn
      rw [close_get_self, close_get_self]
    · rw [close_get_ne _ _ _ _ hn, close_get_ne _ _ _ _ hn]
  · have h2 := (init_fresh_ok a d nt (TidyLogger.close env name reg).1 fp hfresh hres).2.2
    rw [hname] at h2
    rw [h2]

/-- Witness for C3: closing the default construction with an
environment in which every `flush()` and `close()` call fails still
detaches both sinks, and re-constructing afterwards attaches them
again. -/
theorem C3_close_release_witness :
    ((TidyLogger.close ⟨fun _ => false, fun _ => false⟩ "TidyLogger"
        (TidyLogger.init { } "20240102" false emptyRegistry).registry).1.get "TidyLogger").handlers
      = [] ∧
    ((TidyLogger.init { } "20240102" false
        (TidyLogger.close ⟨fun _ => false, fun _ => false⟩ "TidyLogger"
          (TidyLogger.init { } "20240102" false emptyRegistry).registry).1).registry.get
        "TidyLogger").handlers
      = [{ kind := TidyLogger.fileHandlerKind { }
             { absolute := false, parts := ["log_20240102.log"] }, level := 10 },
         { kind := SinkKind.streamSink, level := 20 }] := by
  have h := C3_close_release ⟨fun _ => false, fun _ => false⟩ ⟨fun _ => false, fun _ => false⟩
    "TidyLogger" (TidyLogger.init { } "20240102" false emptyRegistry).registry
    { } "20240102" false { absolute := false, parts := ["log_20240102.log"] } rfl (by decide)
  exact ⟨h.1, h.2.2.2.2.2⟩

/-- C9: a single `close()` call detaches every handler currently on the
shared named logger — including handlers it did not create, such as
externally attached ones — after attempting flush and close on each. -/
theorem C9_close_removes_external (env : TidyLogger.SinkEnv) (name : String) (reg : Registry)
    (h : Handler) (hmem : h ∈ (reg.get name).handlers) :
    ((TidyLogger.close env name reg).1.get name).handlers = [] ∧
    ((TidyLogger.close env name reg).2).map TidyLogger.CloseEvent.handler
      = (reg.get name).handlers ∧
    h ∉ ((TidyLogger.close env name reg).1.get name).handlers ∧
    ∃ ev ∈ (TidyLogger.close env name reg).2, ev.handler = h := by
  refine ⟨?_, close_events env name reg, ?_, ?_⟩
  · rw [close_get_self]
  · rw [close_get_self]
    simp
  · have hin : h ∈ ((TidyLogger.close env name reg).2).map TidyLogger.CloseEvent.handler := by
      rw [close_events env name reg]
      exact hmem
    obtain ⟨ev, hev2, hev3⟩ := List.mem_map.mp hin
    exact ⟨ev, hev2, hev3⟩

/-- Witness for C9: an externally attached handler (never created by the
facade) is flushed/closed and detached by `close()`. -/
theorem C9_close_removes_external_witness :
    ((TidyLogger.close ⟨fun _ => true, fun _ => true⟩ "x"
        (emptyRegistry.set "x"
          { level := 0, handlers := [{ kind := SinkKind.externalSink "ext", level := 20 }] })).1.get
        "x").handlers = [] ∧
    ∃ ev ∈ (TidyLogger.close ⟨fun _ => true, fun _ => true⟩ "x"
        (emptyRegistry.set "x"
          { level := 0, handlers := [{ kind := SinkKind.externalSink "ext", level := 20 }] })).2,
      ev.handler = { kind := SinkKind.externalSink "ext", level := 20 } := by
  have h := C9_close_removes_external ⟨fun _ => true, fun _ => true⟩ "x"
    (emptyRegistry.set "x"
      { level := 0, handlers := [{ kind := SinkKind.externalSink "ext", level := 20 }] })
    { kind := SinkKind.externalSink "ext", level := 20 } (by decide)
  exact ⟨h.1, h.2.2.2⟩

theorem create_file_path_str_blank_or_null (raw date : String) (add isNT : Bool)
    (hbad : isBlank (pathToString isNT (parsePath isNT raw)) = true ∨
            '\x00' ∈ (pathToString isNT (parsePath isNT raw)).toList) :
    ∃ msg, msg ∈ [emptyNameMsg, nullByteMsg] ∧
      TidyLogger.create_file_path_str raw add date isNT
        = Except.error (PyError.valueError msg) := by
  by_cases hblank : isBlank (pathToString isNT (parsePath isNT raw)) = true
  · refine ⟨emptyNameMsg, by simp, ?_⟩
    simp only [TidyLogger.create_file_path_str]
    rw [if_pos hblank]
  · have hnull : '\x00' ∈ (pathToString isNT (parsePath isNT raw)).toList :=
      hbad.resolve_left hblank
    refine ⟨nullByteMsg, by simp, ?_⟩
    simp only [TidyLogger.create_file_path_str]
    rw [if_neg hblank, if_pos (List.elem_eq_true_of_mem hnull)]

/-- C4: a name that, after normalization through `Path`, is whitespace-only
or contains a null byte is rejected by the resolver with the
empty-name / null-byte `ValueError`; construction then performs no
directory creation and no file opening, and attaches no sinks — the
error escapes with only the resolution attempt in the effect trace. -/
theorem C4_empty_or_null_rejected (raw date : String) (isNT : Bool)
    (hbad : isBlank (pathToString isNT (parsePath isNT raw)) = true ∨
            '\x00' ∈ (pathToString isNT (parsePath isNT raw)).toList) :
    (∀ add : Bool, ∃ msg, msg ∈ [emptyNameMsg, nullByteMsg] ∧
       TidyLogger.create_file_path (PyVal.str raw) add date isNT
         = Except.error (PyError.valueError msg) ∧
       TidyLogger.create_file_path (PyVal.path raw) add date isNT
         = Except.error (PyError.valueError msg)) ∧
    (∀ (a : TidyLogger.InitArgs) (reg : Registry),
       a.file_name = PyVal.str raw ∨ a.file_name = PyVal.path raw →
       (∀ eff ∈ (TidyLogger.init a date isNT reg).effects, eff = Effect.resolvePath) ∧
       (∀ n, ((TidyLogger.init a date isNT reg).registry.get n).handlers
         = (reg.get n).handlers) ∧
       ((reg.get a.effectiveName).handlers = [] →
        ∃ msg, msg ∈ [emptyNameMsg, nullByteMsg] ∧
          (TidyLogger.init a date isNT reg).outcome
            = Except.error (PyError.valueError msg))) := by
  constructor
  · intro add
    obtain ⟨msg, hm, he⟩ := create_file_path_str_blank_or_null raw date add isNT hbad
    exact ⟨msg, hm, he, he⟩
  · intro a reg hfn
    obtain ⟨msg, hm, he⟩ :=
      create_file_path_str_blank_or_null raw date a.add_date_suffix_to_file_name isNT hbad
    have herr : TidyLogger.create_file_path a.file_name a.add_date_suffix_to_file_name date isNT
        = Except.error (PyError.valueError msg) := by
      rcases hfn with h1 | h1 <;> (rw [h1]; exact he)
    by_cases hfresh : (reg.get a.effectiveName).handlers = []
    · rw [init_resolve_error a date isNT reg _ hfresh herr]
      refine ⟨by simp, ?_, fun _ => ⟨msg, hm, rfl⟩⟩
      intro n
      by_cases hn : n = a.effectiveName
      · subst hn
        rw [Registry.get_set_self]
      · rw [Registry.get_set_ne _ _ _ _ hn]
    · rw [init_guarded a date isNT reg hfresh]
      refine ⟨by simp, ?_, fun hc => absurd hc hfresh⟩
      intro n
      by_cases hn : n = a.effectiveName
      · subst hn
        rw [Registry.get_set_self]
      · rw [Registry.get_set_ne _ _ _ _ hn]

/-- Witness for C4 at the whitespace-only name `"   "`. -/
theorem C4_empty_or_null_rejected_witness :
    (∃ msg, msg ∈ [emptyNameMsg, nullByteMsg] ∧
       TidyLogger.create_file_path (PyVal.str "   ") true "20240102" false
         = Except.error (PyError.valueError msg) ∧
       TidyLogger.create_file_path (PyVal.path "   ") true "20240102" false
         = Except.error (PyError.valueError msg)) ∧
    (∃ msg, msg ∈ [emptyNameMsg, nullByteMsg] ∧
       (TidyLogger.init { file_name := PyVal.str "   " } "20240102" false emptyRegistry).outcome
         = Except.error (PyError.valueError msg)) := by
  have h := C4_empty_or_null_rejected "   " "20240102" false (Or.inl (by decide))
  exact ⟨h.1 true,
    (h.2 { file_name := PyVal.str "   " } emptyRegistry (Or.inl rfl)).2.2 (by decide)⟩

theorem withName_error_msgs (isNT : Bool) (p : PurePath) (nn : String) (e : PyError)
    (h : PurePath.withName isNT p nn = Except.error e) :
    e = PyError.valueError emptyPathNameMsg ∨ e = PyError.valueError invalidNewNameMsg := by
  simp only [PurePath.withName] at h
  split at h
  · simp only [Except.error.injEq] at h
    exact Or.inl h.symm
  · split at h
    · simp only [Except.error.injEq] at h
      exact Or.inr h.symm
    · exact absurd h (by simp)

theorem withSuffix_error_msgs (isNT : Bool) (p : PurePath) (sfx : String) (e : PyError)
    (h : PurePath.withSuffix isNT p sfx = Except.error e) :
    e = PyError.valueError emptyPathNameMsg ∨ e = PyError.valueError invalidSuffixMsg := by
  simp only [PurePath.withSuffix] at h
  split at h
  · simp only [Except.error.injEq] at h
    exact Or.inr h.symm
  · split at h
    · simp only [Except.error.injEq] at h
      exact Or.inr h.symm
    · split at h
      · simp only [Except.error.injEq] at h
        exact Or.inl h.symm
      · exact absurd h (by simp)

theorem create_file_path_str_error_msgs (raw : String) (add : Bool) (date : String)
    (isNT : Bool) (e : PyError)
    (h : TidyLogger.create_file_path_str raw add date isNT = Except.error e) :
    ∃ m, e = PyError.valueError m ∧
      m ∈ [emptyNameMsg, nullByteMsg, invalidCharsMsg, reservedNameMsg,
           emptyPathNameMsg, invalidNewNameMsg, invalidSuffixMsg] := by
  simp only [TidyLogger.create_file_path_str] at h
  split at h
  · simp only [Except.error.injEq] at h
    exact ⟨emptyNameMsg, h.symm, by simp⟩
  split at h
  · simp only [Except.error.injEq] at h
    exact ⟨nullByteMsg, h.symm, by simp⟩
  split at h
  · simp only [Except.error.injEq] at h
    exact ⟨invalidCharsMsg, h.symm, by simp⟩
  split at h
  · simp only [Except.error.injEq] at h
    exact ⟨reservedNameMsg, h.symm, by simp⟩
  split at h
  · rcases withName_error_msgs _ _ _ _ h with h1 | h1
    · exact ⟨emptyPathNameMsg, h1, by simp⟩
    · exact ⟨invalidNewNameMsg, h1, by simp⟩
  · split at h
    · rcases withSuffix_error_msgs _ _ _ _ h with h1 | h1
      · exact ⟨emptyPathNameMsg, h1, by simp⟩
      · exact ⟨invalidSuffixMsg, h1, by simp⟩
    · exact absurd h (by simp)

/-- C8: a `file_name` that is neither `None` nor a `str`/`Path` value
fails with the type `ValueError`, whose message differs from every
message a malformed name string can produce — no name input ever
produces the type error, so the two error kinds are distinguishable. -/
theorem C8_invalid_type (tag date : String) (add isNT : Bool) :
    TidyLogger.create_file_path (PyVal.other tag) add date isNT
      = Except.error (PyError.valueError typeErrorMsg) ∧
    typeErrorMsg ∉ [emptyNameMsg, nullByteMsg, invalidCharsMsg, reservedNameMsg,
                    emptyPathNameMsg, invalidNewNameMsg, invalidSuffixMsg] ∧
    (∀ (raw : String) (e : PyError),
       TidyLogger.create_file_path (PyVal.str raw) add date isNT = Except.error e →
       e ≠ PyError.valueError typeErrorMsg) ∧
    (∀ (raw : String) (e : PyError),
       TidyLogger.create_file_path (PyVal.path raw) add date isNT = Except.error e →
       e ≠ PyError.valueError typeErrorMsg) := by
  refine ⟨rfl, by decide, ?_, ?_⟩ <;>
  · intro raw e he hc
    obtain ⟨m, hm1, hm2⟩ := create_file_path_str_error_msgs raw add date isNT e he
    rw [hc] at hm1
    simp only [PyError.valueError.injEq] at hm1
    rw [← hm1] at hm2
    exact absurd hm2 (by decide)

/-- Witness for C8: an integer-like value yields the type error, and a
malformed name (here the empty string) yields a different error. -/
theorem C8_invalid_type_witness :
    TidyLogger.create_file_path (PyVal.other "3") true "20240102" false
      = Except.error (PyError.valueError typeErrorMsg) ∧
    PyError.valueError emptyPathNameMsg ≠ PyError.valueError typeErrorMsg := by
  have h := C8_invalid_type "3" "20240102" true false
  exact ⟨h.1, h.2.2.1 "" (PyError.valueError emptyPathNameMsg) (by decide)⟩

theorem pyNameSplit_chars (isNT : Bool) (n : String)
    (h : ∀ c ∈ n.toList, isSep isNT c = false) :
    (∀ c ∈ (pyNameSplit n).1.toList, isSep isNT c = false) ∧
    (∀ c ∈ (pyNameSplit n).2.toList, isSep isNT c = false) := by
  by_cases hs : (pyNameSplit n).2 = ""
  · rw [hs, pyNameSplit_of_suffix_empty n hs]
    exact ⟨h, by intro c hc; exact absurd hc (by simp)⟩
  · obtain ⟨l, r, hnl, hdot, hl, hr, h1, h2⟩ := pyNameSplit_of_suffix_ne n hs
    rw [h1, h2]
    constructor
    · intro c hc
      apply h
      rw [hnl]
      exact List.mem_append.mpr (Or.inl hc)
    · intro c hc
      rcases List.mem_cons.mp hc with rfl | hc2
      · exact isSep_dot isNT
      · apply h
        rw [hnl]
        exact List.mem_append.mpr (Or.inr (List.mem_cons_of_mem _ hc2))

theorem withName_single_ok (isNT : Bool) (p : PurePath) (nn : String)
    (hne : nn ≠ "") (hdot : nn ≠ ".") (hchars : ∀ c ∈ nn.toList, isSep isNT c = false)
    (hpname : p.name ≠ "") :
    PurePath.withName isNT p nn
      = Except.ok { p with parts := p.parts.dropLast ++ [nn] } := by
  simp only [PurePath.withName]
  rw [if_neg hpname, parsePath_single isNT nn hne hdot hchars, if_neg (by simp)]

theorem create_file_path_str_posix_ok (raw date : String) (add : Bool)
    (hblank : isBlank (pathToString false (parsePath false raw)) = false)
    (hnull : '\x00' ∉ (pathToString false (parsePath false raw)).toList)
    (hname : (parsePath false raw).name ≠ "")
    (hdate : date.toList.all Char.isDigit = true) :
    ∃ p, TidyLogger.create_file_path_str raw add date false = Except.ok p := by
  have hcf : ((pathToString false (parsePath false raw)).toList.contains '\x00') = false := by
    simpa using hnull
  simp only [TidyLogger.create_file_path_str]
  rw [if_neg (by simp [hblank]), if_neg (by simpa using hnull), if_neg (by simp),
      if_neg (by simp)]
  have hspc := pyNameSplit_chars false (parsePath false raw).name (name_chars false raw)
  cases add with
  | true =>
      rw [if_pos rfl]
      have hnn : ∀ c ∈ ((parsePath false raw).stem ++ "_" ++ date ++
          (if (parsePath false raw).suffix = "" then TidyLogger.DEFAULT_FILE_EXTENSION
           else (parsePath false raw).suffix)).toList, isSep false c = false := by
        intro c hc
        simp only [toList_append, List.mem_append] at hc
        rcases hc with ((h1 | h2) | h3) | h4
        · exact hspc.1 c h1
        · have : c = '_' := by simpa using h2
          subst this
          decide
        · exact isSep_digit false c (List.all_eq_true.mp hdate c h3)
        · by_cases hs : (parsePath false raw).suffix = ""
          · rw [if_pos hs] at h4
            have : c = '.' ∨ c = 'l' ∨ c = 'o' ∨ c = 'g' := by
              simpa [TidyLogger.DEFAULT_FILE_EXTENSION] using h4
            rcases this with rfl | rfl | rfl | rfl <;> decide
          · rw [if_neg hs] at h4
            exact hspc.2 c h4
      have hu : '_' ∈ ((parsePath false raw).stem ++ "_" ++ date ++
          (if (parsePath false raw).suffix = "" then TidyLogger.DEFAULT_FILE_EXTENSION
           else (parsePath false raw).suffix)).toList := by
        simp [toList_append]
      refine ⟨_, withName_single_ok false (parsePath false raw) _ ?_ ?_ hnn hname⟩
      · intro hc
        have h2 := congrArg String.toList hc
        rw [h2] at hu
        exact absurd hu (by simp)
      · intro hc
        have h2 := congrArg String.toList hc
        rw [h2] at hu
        exact absurd hu (by decide)
  | false =>
      rw [if_neg (by simp)]
      by_cases hs : (parsePath false raw).suffix = ""
      · rw [if_pos hs]
        refine ⟨{ parsePath false raw with
            parts := (parsePath false raw).parts.dropLast ++
              [(parsePath false raw).name ++ TidyLogger.DEFAULT_FILE_EXTENSION] }, ?_⟩
        simp only [PurePath.withSuffix]
        rw [if_neg (by decide), if_neg (by decide), if_neg hname, if_pos hs]
      · rw [if_neg hs]
        exact ⟨parsePath false raw, rfl⟩

/-- C5 counterexample: on Windows the character check runs on the
normalized `str(Path(name))`, not on the supplied string: `"./x"`
contains the forbidden character `/` yet resolves successfully, because
pathlib normalizes it to `"x"`. -/
theorem C5_counterexample :
    ('/' ∈ "./x".toList) ∧
    TidyLogger.create_file_path (PyVal.str "./x") true "20240102" true
      = Except.ok { absolute := false, parts := ["x_20240102.log"] } := by
  exact ⟨by decide, by decide⟩

/-- C5 (amended): on `os.name = "nt"` the resolver raises the name
`ValueError` for every input whose NORMALIZED path string
(`str(Path(name))`) contains a character from `<>:"/\|?*`, or one of
whose normalized components has a reserved device-name stem
(`CON PRN AUX NUL COM1-9 LPT1-9`, case-insensitive); on other platforms
such names (when otherwise valid: not whitespace-only, no null byte,
non-empty final component, digit date) are accepted. -/
theorem C5_platform_checks_amended (raw date : String) (add : Bool) :
    ((((pathToString true (parsePath true raw)).toList.any
          (fun ch => TidyLogger.invalid_chars.contains ch) = true) ∨
      ((parsePath true raw).parts.any
          (fun part => TidyLogger.reserved.contains
            (pyUpper (PurePath.stem (parsePath true part)))) = true)) →
      ∃ msg, msg ∈ [emptyNameMsg, nullByteMsg, invalidCharsMsg, reservedNameMsg] ∧
        TidyLogger.create_file_path (PyVal.str raw) add date true
          = Except.error (PyError.valueError msg)) ∧
    (isBlank (pathToString false (parsePath false raw)) = false →
     '\x00' ∉ (pathToString false (parsePath false raw)).toList →
     (parsePath false raw).name ≠ "" →
     date.toList.all Char.isDigit = true →
     ∃ p, TidyLogger.create_file_path (PyVal.str raw) add date false = Except.ok p) := by
  constructor
  · intro hviol
    by_cases hblank : isBlank (pathToString true (parsePath true raw)) = true
    · obtain ⟨msg, hm, he⟩ := create_file_path_str_blank_or_null raw date add true (Or.inl hblank)
      have hm2 : msg ∈ [emptyNameMsg, nullByteMsg, invalidCharsMsg, reservedNameMsg] := by
        rcases (show msg = emptyNameMsg ∨ msg = nullByteMsg by simpa using hm) with rfl | rfl <;>
          simp
      exact ⟨msg, hm2, he⟩
    by_cases hnull : '\x00' ∈ (pathToString true (parsePath true raw)).toList
    · obtain ⟨msg, hm, he⟩ := create_file_path_str_blank_or_null raw date add true (Or.inr hnull)
      have hm2 : msg ∈ [emptyNameMsg, nullByteMsg, invalidCharsMsg, reservedNameMsg] := by
        rcases (show msg = emptyNameMsg ∨ msg = nullByteMsg by simpa using hm) with rfl | rfl <;>
          simp
      exact ⟨msg, hm2, he⟩
    by_cases hchar : (pathToString true (parsePath true raw)).toList.any
        (fun ch => TidyLogger.invalid_chars.contains ch) = true
    · refine ⟨invalidCharsMsg, by simp, ?_⟩
      show TidyLogger.create_file_path_str raw add date true = _
      simp only [TidyLogger.create_file_path_str]
      rw [if_neg hblank, if_neg (by simpa using hnull),
          if_pos (by rw [Bool.true_and]; exact hchar)]
    · have hres : (parsePath true raw).parts.any
          (fun part => TidyLogger.reserved.contains
            (pyUpper (PurePath.stem (parsePath true part)))) = true := by
        rcases hviol with h1 | h1
        · exact absurd h1 hchar
        · exact h1
      refine ⟨reservedNameMsg, by simp, ?_⟩
      show TidyLogger.create_file_path_str raw add date true = _
      simp only [TidyLogger.create_file_path_str]
      rw [if_neg hblank, if_neg (by simpa using hnull),
          if_neg (by rw [Bool.true_and]; exact hchar),
          if_pos (by rw [Bool.true_and]; exact hres)]
  · intro hblank hnull hname hdate
    exact create_file_path_str_posix_ok raw date add hblank hnull hname hdate

/-- Witness for the amended C5: `"inva|id:log*name?.log"` is rejected on
Windows; `"boa/null/aux.log"` (rejected on Windows) is accepted on
POSIX. -/
theorem C5_platform_checks_amended_witness :
    (∃ msg, msg ∈ [emptyNameMsg, nullByteMsg, invalidCharsMsg, reservedNameMsg] ∧
       TidyLogger.create_file_path (PyVal.str "inva|id:log*name?.log") true "20240102" true
         = Except.error (PyError.valueError msg)) ∧
    (∃ p, TidyLogger.create_file_path (PyVal.str "boa/null/aux.log") true "20240102" false
       = Except.ok p) :=
  ⟨(C5_platform_checks_amended "inva|id:log*name?.log" "20240102" true).1 (Or.inl (by decide)),
   (C5_platform_checks_amended "boa/null/aux.log" "20240102" true).2
     (by decide) (by decide) (by decide) (by decide)⟩

/-- Witness for C7 at the date `20240102`. -/
theorem C7_default_name_witness :
    ∃ p : PurePath,
      TidyLogger.create_file_path PyVal.none true "20240102" false = Except.ok p ∧
      p.absolute = false ∧
      p.parts = [TidyLogger.DEFAULT_FILE_NAME ++ "_" ++ "20240102" ++ TidyLogger.DEFAULT_FILE_EXTENSION] ∧
      p.stem = TidyLogger.DEFAULT_FILE_NAME ++ "_" ++ "20240102" ∧
      p.suffix = TidyLogger.DEFAULT_FILE_EXTENSION ∧
      p.parent.parts = [] ∧ pathToString false p.parent = "." :=
  (C7_default_name "20240102" false (by decide)).1
